import Mathlib

/-!
Shallow embedding of the trainer component of the haber-gpt repository
(src/trainer.py), together with theorems settling the specification
claims about it.

Conventions of the embedding:
* Python ints are `ℕ` (all iteration counters and sizes in the trainer
  are non-negative) and Python floats that are only constructed,
  compared and stored (losses, weight decay) are `ℚ`, keeping those
  definitions computable; floats that flow through `math.cos` (the
  learning-rate schedule) are `ℝ`.
* Fallible code returns `Option`/`Except`: a `none`/`Except.error`
  models an uncaught Python exception at that point.
* File-system effects of checkpointing are explicit state passing on a
  map `String → Option (Checkpoint α β)` from paths to contents.
* Random draws (`torch.randint`) are passed in as an explicit list of
  drawn indices, with their range as a hypothesis.
-/

namespace HaberGPT

/-- `TrainerConfig` from src/trainer.py (lines 13-36), restricted to the
fields the verified claims touch.  `data_dir` and the wandb naming
fields are irrelevant to the claims and omitted; numeric defaults are
the source defaults. -/
structure TrainerConfig where
  seq_length : ℕ := 1024
  batch_size : ℕ := 64
  warmup_iters : ℕ := 100
  learning_rate : ℚ := 1 / 10000
  lr_decay_iters : ℕ := 5000
  max_iters : ℕ := 5000
  min_lr : ℚ := 1 / 1000000
  weight_decay : ℚ := 0
  decay_lr : Bool := true
  eval_interval : ℕ := 250
  eval_iters : ℕ := 200
  out_dir : String := "out"
  wandb_log : Bool := false

/-- `Trainer.get_lr` (src/trainer.py lines 91-104).  Returns `none`
exactly where the Python function raises: a `ZeroDivisionError` when the
cosine branch is reached with `lr_decay_iters - warmup_iters = 0`, and
an `AssertionError` when `decay_ratio` falls outside `[0, 1]`.  The
branch conditions compare ints exactly as the source does; the float
arithmetic is carried out in `ℝ`. -/
noncomputable def get_lr (c : TrainerConfig) (it : ℕ) : Option ℝ :=
  -- 1) linear warmup for warmup_iters steps
  if it < c.warmup_iters then
    some ((c.learning_rate : ℝ) * it / c.warmup_iters)
  -- 2) if it > lr_decay_iters, return min learning rate
  else if c.lr_decay_iters < it then
    some ((c.min_lr : ℝ))
  -- 3) in between, use cosine decay down to min learning rate
  else if c.lr_decay_iters = c.warmup_iters then
    none
  else
    let decay_ratio : ℝ :=
      ((it : ℝ) - c.warmup_iters) / ((c.lr_decay_iters : ℝ) - c.warmup_iters)
    if 0 ≤ decay_ratio ∧ decay_ratio ≤ 1 then
      some ((c.min_lr : ℝ) +
        0.5 * (1 + Real.cos (Real.pi * decay_ratio)) *
          ((c.learning_rate : ℝ) - c.min_lr))
    else
      none

/-- The value returned by `Trainer.update_lr` (src/trainer.py lines
80-88): the flat configured rate when `decay_lr` is disabled, otherwise
`get_lr it`.  The source additionally writes the value into every
optimizer parameter group; only the returned value matters to the
claims. -/
noncomputable def update_lr (c : TrainerConfig) (it : ℕ) : Option ℝ :=
  if !c.decay_lr then some ((c.learning_rate : ℝ)) else get_lr c it

/-- `Trainer.get_batch` (src/trainer.py lines 62-78).  The two corpora
are the contents of `train.bin` and `val.bin` as token lists; the
membership in `'train'` is the exact string comparison of the source
(`if split == 'train'`, any other value falls to the `else` reading
`val.bin`).  `ix` is the list of `batch_size` start indices drawn by
`torch.randint(len(data) - seq_length, (batch_size,))`; each row of the
result gathers `data[i : i+seq_length]` (inputs) and
`data[i+1 : i+1+seq_length]` (targets).  Device placement and memory
pinning are no-ops on values. -/
def get_batch (c : TrainerConfig) (train_data val_data : List ℕ)
    (split : String) (ix : List ℕ) : List (List ℕ) × List (List ℕ) :=
  let data := if split = "train" then train_data else val_data
  (ix.map fun i => (data.drop i).take c.seq_length,
   ix.map fun i => (data.drop (i + 1)).take c.seq_length)

/-- A model parameter as `Trainer._configure_optimizers` observes it:
whether it requires grad, its tensor rank (`p.dim()`), and its element
count (`p.numel()`, diagnostic only). -/
structure PyParam where
  requires_grad : Bool
  dim : ℕ
  numel : ℕ
  deriving DecidableEq

/-- One optimizer parameter group, as in the `optim_groups` literal of
`Trainer._configure_optimizers`. -/
structure ParamGroup where
  params : List PyParam
  weight_decay : ℚ
  deriving DecidableEq

/-- `Trainer._configure_optimizers` (src/trainer.py lines 106-132):
filter to grad-requiring parameters, split by `p.dim() >= 2` /
`p.dim() < 2`, and build the two optimizer groups.  The parameter-count
printing and the `AdamW` construction do not affect the groups and are
not modelled. -/
def configure_optimizers (c : TrainerConfig)
    (named_params : List (String × PyParam)) : List ParamGroup :=
  let param_dict := named_params
  let param_dict := param_dict.filter fun np => np.2.requires_grad
  let decay_params := (param_dict.filter fun np => 2 ≤ np.2.dim).map fun np => np.2
  let nodecay_params := (param_dict.filter fun np => np.2.dim < 2).map fun np => np.2
  [{ params := decay_params, weight_decay := c.weight_decay },
   { params := nodecay_params, weight_decay := 0 }]

/-- The checkpoint dictionary written by `Trainer.do_eval`
(src/trainer.py lines 239-244): model state dict, optimizer state dict,
iteration number and best validation loss.  Model and optimizer states
are abstract (`α`, `β`). -/
structure Checkpoint (α β : Type) where
  model : α
  optimizer : β
  iter_num : ℕ
  best_val_loss : ℚ

/-- The fixed checkpoint path `os.path.join(out_dir, 'ckpt.pt')`. -/
def ckptPath (c : TrainerConfig) : String := c.out_dir ++ "/ckpt.pt"

/-- The checkpointing block of `Trainer.do_eval` (src/trainer.py lines
236-248) as explicit state passing on the file system `fs` (a map from
paths to checkpoint contents).  Returns the updated file system, the
value of the local variable `best_val_loss` after the block, and
whether `torch.save` executed.  Exactly as in the source, the local
`best_val_loss` is reassigned whenever `val_loss < best_val_loss`, and
the save additionally requires `iter > 0`; a save writes the checkpoint
to the single path `ckptPath c`, leaving every other path unchanged. -/
def do_eval_ckpt {α β : Type} (c : TrainerConfig) (ms : α) (os : β)
    (best_val_loss : ℚ) (iter : ℕ) (val_loss : ℚ)
    (fs : String → Option (Checkpoint α β)) :
    (String → Option (Checkpoint α β)) × ℚ × Bool :=
  if val_loss < best_val_loss then
    let best := val_loss
    if 0 < iter then
      (fun p => if p = ckptPath c then
          some { model := ms, optimizer := os, iter_num := iter,
                 best_val_loss := best }
        else fs p,
       best, true)
    else
      (fs, best, false)
  else
    (fs, best_val_loss, false)

/-- The evaluation-and-checkpoint skeleton of `Trainer.train`
(src/trainer.py lines 178-188) with the metrics sink disabled: starting
from `best_val_loss = 1e+9`, iterate `iter = 0 .. max_iters` and at
every `iter % eval_interval == 0` run the checkpoint block of `do_eval`
on the measured validation loss `vl iter`.  Crucially, exactly as in
the source, the statement `self.do_eval(model, optimizer,
best_val_loss, ...)` passes `best_val_loss` by value and discards the
callee's result, so the loop variable `best_val_loss` is never
reassigned.  The accumulator carries (loop `best_val_loss`, file
system, log); each eval appends `(iter, best_val_loss passed in, saved?)`
to the log. -/
def train_evals {α β : Type} (c : TrainerConfig) (ms : α) (os : β)
    (vl : ℕ → ℚ) (fs0 : String → Option (Checkpoint α β)) :
    ℚ × (String → Option (Checkpoint α β)) × List (ℕ × ℚ × Bool) :=
  (List.range (c.max_iters + 1)).foldl
    (fun acc iter =>
      if iter % c.eval_interval = 0 then
        let r := do_eval_ckpt c ms os acc.1 iter (vl iter) acc.2.1
        (acc.1, r.1, acc.2.2 ++ [(iter, acc.1, r.2.2)])
      else
        acc)
    ((10 : ℚ) ^ 9, fs0, [])

/-- The per-split loop body of `Trainer.estimate_loss` (src/trainer.py
lines 145-151): `eval_iters` times fetch a batch and run the forward
pass, collecting the losses.  `fetch k` models `self.get_batch(split)`
at loop index `k` and `fwd` models the forward pass; either may raise
(`Except.error`), which aborts the loop and propagates. -/
def evalSplit {ε α : Type} (eval_iters : ℕ) (fetch : ℕ → Except ε α)
    (fwd : α → Except ε ℚ) : Except ε (List ℚ) :=
  (List.range eval_iters).foldlM
    (fun acc k => do
      let b ← fetch k
      let v ← fwd b
      pure (acc ++ [v]))
    []

/-- `losses.mean()` over the collected per-split losses. -/
def listMean (l : List ℚ) : ℚ := l.sum / l.length

/-- `Trainer.estimate_loss` (src/trainer.py lines 140-153) with the
model's mode made explicit.  The call begins with `model.eval()`
(training mode := false); the two split loops follow; `model.train()`
(training mode := true) is the last statement and therefore executes
only if no exception escapes the loops — the source has no
`try`/`finally`, so an exception propagates with the model still in
eval mode.  Returns the `(train mean, val mean)` result (or the
propagated error) together with the model's training mode at
termination. -/
def estimate_loss {ε α : Type} (c : TrainerConfig)
    (fetch : String → ℕ → Except ε α) (fwd : α → Except ε ℚ) :
    Except ε (ℚ × ℚ) × Bool :=
  match (do
      let t ← evalSplit c.eval_iters (fetch "train") fwd
      let v ← evalSplit c.eval_iters (fetch "val") fwd
      pure (listMean t, listMean v) : Except ε (ℚ × ℚ)) with
  | Except.ok o => (Except.ok o, true)
  | Except.error e => (Except.error e, false)

/-- `Trainer.do_eval` (src/trainer.py lines 222-248) after the losses
have been measured: when `wandb_log` is enabled the metrics record is
pushed by a bare `wandb.log(...)` call — `sink` is that call's outcome,
and since the source wraps it in no `try`/`except`, an `Except.error`
propagates out of `do_eval` before the checkpoint block runs.
Otherwise the checkpoint block `do_eval_ckpt` executes and its result
is returned.  (The trailing ETA computation and printing touch no state
the claims mention.) -/
def do_eval {ε α β : Type} (c : TrainerConfig) (ms : α) (os : β)
    (sink : Except ε Unit) (best_val_loss : ℚ) (iter : ℕ)
    (val_loss : ℚ) (fs : String → Option (Checkpoint α β)) :
    Except ε ((String → Option (Checkpoint α β)) × ℚ × Bool) :=
  match (if c.wandb_log then sink else Except.ok ()) with
  | Except.error e => Except.error e
  | Except.ok _ => Except.ok (do_eval_ckpt c ms os best_val_loss iter val_loss fs)

/-! ## Lemmas about the learning-rate schedule -/

/-- In the cosine phase (`warmup_iters ≤ it ≤ lr_decay_iters`, strict
gap between the two bounds), `get_lr` reaches the cosine formula: the
division is well defined and the `assert 0 <= decay_ratio <= 1`
passes. -/
theorem get_lr_cosine_phase (c : TrainerConfig) (it : ℕ)
    (h1 : c.warmup_iters ≤ it) (h2 : it ≤ c.lr_decay_iters)
    (h3 : c.warmup_iters < c.lr_decay_iters) :
    get_lr c it = some ((c.min_lr : ℝ) +
      0.5 * (1 + Real.cos (Real.pi *
        (((it : ℝ) - c.warmup_iters) /
          ((c.lr_decay_iters : ℝ) - c.warmup_iters)))) *
      ((c.learning_rate : ℝ) - c.min_lr)) := by
  have hden : (0 : ℝ) < (c.lr_decay_iters : ℝ) - c.warmup_iters := by
    have : (c.warmup_iters : ℝ) < c.lr_decay_iters := by exact_mod_cast h3
    linarith
  have hnum : (0 : ℝ) ≤ (it : ℝ) - c.warmup_iters := by
    have : (c.warmup_iters : ℝ) ≤ it := by exact_mod_cast h1
    linarith
  have hle : (it : ℝ) - c.warmup_iters ≤ (c.lr_decay_iters : ℝ) - c.warmup_iters := by
    have : (it : ℝ) ≤ c.lr_decay_iters := by exact_mod_cast h2
    linarith
  unfold get_lr
  rw [if_neg (by omega), if_neg (by omega), if_neg (by omega), if_pos]
  exact ⟨div_nonneg hnum hden.le, (div_le_one hden).mpr hle⟩

/-- Helper: at a configuration with `warmup_iters = lr_decay_iters = k`,
the schedule at `it = k` reaches the cosine branch and hits the
division by zero. -/
theorem get_lr_none_at_degenerate (c : TrainerConfig) (k : ℕ)
    (hw : c.warmup_iters = k) (hd : c.lr_decay_iters = k) :
    get_lr c k = none := by
  unfold get_lr
  rw [if_neg (by omega), if_neg (by omega), if_pos (by omega)]

/-- Claim C9: the schedule is not total at a degenerate configuration.
For any configuration with `warmup_iters = lr_decay_iters = k`,
evaluating the schedule at `it = k` reaches the cosine branch and
divides by zero (`ZeroDivisionError`, modelled as `none`); conversely,
with a strict gap `warmup_iters < lr_decay_iters` the schedule returns
a value at every iteration. -/
theorem get_lr_degenerate_division (c : TrainerConfig) :
    (∀ k, c.warmup_iters = k → c.lr_decay_iters = k → get_lr c k = none) ∧
    (c.warmup_iters < c.lr_decay_iters → ∀ it, (get_lr c it).isSome = true) := by
  constructor
  · exact fun k hw hd => get_lr_none_at_degenerate c k hw hd
  · intro h3 it
    by_cases hw : it < c.warmup_iters
    · unfold get_lr
      rw [if_pos hw]
      rfl
    · by_cases hd : c.lr_decay_iters < it
      · unfold get_lr
        rw [if_neg hw, if_pos hd]
        rfl
      · rw [get_lr_cosine_phase c it (by omega) (by omega) h3]
        rfl

/-- Witness for `get_lr_degenerate_division` at a concrete degenerate
configuration. -/
def c9cfg : TrainerConfig := { warmup_iters := 3, lr_decay_iters := 3 }

theorem get_lr_degenerate_division_witness : get_lr c9cfg 3 = none :=
  (get_lr_degenerate_division c9cfg).1 3 rfl rfl

/-- Claim C2: with `decay_lr` enabled the learning-rate function is the
three-phase piecewise definition, under the documented configuration
invariant `warmup_iters ≤ lr_decay_iters` (and, for the cosine phase,
the strict gap that makes its formula's denominator non-zero — the
degenerate case is claim C9). -/
theorem get_lr_three_phase (c : TrainerConfig) (hdl : c.decay_lr = true)
    (hinv : c.warmup_iters ≤ c.lr_decay_iters) (it : ℕ) :
    update_lr c it = get_lr c it ∧
    (it < c.warmup_iters →
      get_lr c it = some ((c.learning_rate : ℝ) * it / c.warmup_iters)) ∧
    (c.lr_decay_iters < it → get_lr c it = some ((c.min_lr : ℝ))) ∧
    (c.warmup_iters ≤ it → it ≤ c.lr_decay_iters →
      c.warmup_iters < c.lr_decay_iters →
      get_lr c it = some ((c.min_lr : ℝ) +
        0.5 * (1 + Real.cos (Real.pi *
          (((it : ℝ) - c.warmup_iters) /
            ((c.lr_decay_iters : ℝ) - c.warmup_iters)))) *
        ((c.learning_rate : ℝ) - c.min_lr))) := by
  refine ⟨?_, ?_, ?_, ?_⟩
  · unfold update_lr
    rw [hdl]
    rfl
  · intro h
    unfold get_lr
    rw [if_pos h]
  · intro h
    unfold get_lr
    rw [if_neg (by omega), if_pos h]
  · intro h1 h2 h3
    exact get_lr_cosine_phase c it h1 h2 h3

/-- Witness for `get_lr_three_phase` at a concrete configuration and a
warmup-phase iteration. -/
def c2cfg : TrainerConfig := { warmup_iters := 2, lr_decay_iters := 4 }

theorem get_lr_three_phase_witness :
    get_lr c2cfg 1 = some ((c2cfg.learning_rate : ℝ) * ((1 : ℕ) : ℝ) / c2cfg.warmup_iters) :=
  (get_lr_three_phase c2cfg rfl (by norm_num [c2cfg]) 1).2.1 (by norm_num [c2cfg])

/-- Bounds for the cosine-phase value: with `min_lr ≤ learning_rate`
the value `min_lr + 0.5*(1+cos θ)*(learning_rate - min_lr)` lies in
`[min_lr, learning_rate]`. -/
theorem cosine_value_bounds (m L θ : ℝ) (h : m ≤ L) :
    m ≤ m + 0.5 * (1 + Real.cos θ) * (L - m) ∧
    m + 0.5 * (1 + Real.cos θ) * (L - m) ≤ L := by
  have hc1 := Real.neg_one_le_cos θ
  have hc2 := Real.cos_le_one θ
  constructor
  · nlinarith
  · nlinarith

/-- Counterexample to claim C3 as stated: a configuration satisfying
the claimed invariant `warmup_iters ≤ lr_decay_iters` and
`0 ≤ min_lr ≤ learning_rate` on which `lr(warmup_iters)` is not
`learning_rate` — the degenerate `warmup_iters = lr_decay_iters` makes
the cosine branch divide by zero instead of returning a value. -/
def c3cex : TrainerConfig :=
  { warmup_iters := 1, lr_decay_iters := 1, min_lr := 0, learning_rate := 1 }

theorem lr_bounds_fail_at_degenerate_config :
    (c3cex.warmup_iters ≤ c3cex.lr_decay_iters ∧
     0 ≤ c3cex.min_lr ∧ c3cex.min_lr ≤ c3cex.learning_rate) ∧
    ¬ (∃ v, get_lr c3cex c3cex.warmup_iters = some v ∧ 0 ≤ v ∧
         v ≤ (c3cex.learning_rate : ℝ)) := by
  refine ⟨⟨le_refl _, le_refl _, by norm_num [c3cex]⟩, ?_⟩
  rintro ⟨v, hv, -, -⟩
  have hnone : get_lr c3cex 1 = none := get_lr_none_at_degenerate c3cex 1 rfl rfl
  rw [show c3cex.warmup_iters = 1 from rfl, hnone] at hv
  exact Option.noConfusion hv

/-- Claim C3 (amended): under the strict invariant
`warmup_iters < lr_decay_iters` and `0 ≤ min_lr ≤ learning_rate`, the
schedule is total with `0 ≤ lr(it) ≤ learning_rate` for every `it`,
`lr(0) = 0` when `warmup_iters > 0`, `lr(warmup_iters) =
learning_rate` (the ramp meets the cosine phase continuously), and
`lr(lr_decay_iters) = min_lr` (the cosine phase meets the plateau). -/
theorem lr_bounds_and_boundaries (c : TrainerConfig)
    (hinv : c.warmup_iters < c.lr_decay_iters)
    (h0 : 0 ≤ c.min_lr) (h1 : c.min_lr ≤ c.learning_rate) :
    (∀ it, ∃ v, get_lr c it = some v ∧ 0 ≤ v ∧ v ≤ (c.learning_rate : ℝ)) ∧
    (0 < c.warmup_iters → get_lr c 0 = some 0) ∧
    get_lr c c.warmup_iters = some ((c.learning_rate : ℝ)) ∧
    get_lr c c.lr_decay_iters = some ((c.min_lr : ℝ)) := by
  have h0R : (0 : ℝ) ≤ (c.min_lr : ℝ) := by exact_mod_cast h0
  have h1R : (c.min_lr : ℝ) ≤ (c.learning_rate : ℝ) := by exact_mod_cast h1
  have hLR : (0 : ℝ) ≤ (c.learning_rate : ℝ) := le_trans h0R h1R
  refine ⟨?_, ?_, ?_, ?_⟩
  · intro it
    by_cases hw : it < c.warmup_iters
    · refine ⟨(c.learning_rate : ℝ) * it / c.warmup_iters, ?_, ?_, ?_⟩
      · unfold get_lr
        rw [if_pos hw]
      · positivity
      · have hwpos : (0 : ℝ) < (c.warmup_iters : ℝ) := by
          have hn : 0 < c.warmup_iters := by omega
          exact_mod_cast hn
        rw [mul_div_assoc]
        have hr : (it : ℝ) / c.warmup_iters ≤ 1 := by
          rw [div_le_one hwpos]
          exact_mod_cast hw.le
        calc (c.learning_rate : ℝ) * ((it : ℝ) / c.warmup_iters)
            ≤ (c.learning_rate : ℝ) * 1 := by
              exact mul_le_mul_of_nonneg_left hr hLR
          _ = (c.learning_rate : ℝ) := mul_one _
    · by_cases hd : c.lr_decay_iters < it
      · refine ⟨(c.min_lr : ℝ), ?_, h0R, h1R⟩
        unfold get_lr
        rw [if_neg hw, if_pos hd]
      · rw [get_lr_cosine_phase c it (by omega) (by omega) hinv]
        have hb := cosine_value_bounds (c.min_lr : ℝ) (c.learning_rate : ℝ)
          (Real.pi * (((it : ℝ) - c.warmup_iters) /
            ((c.lr_decay_iters : ℝ) - c.warmup_iters))) h1R
        exact ⟨_, rfl, le_trans h0R hb.1, hb.2⟩
  · intro hwpos
    unfold get_lr
    rw [if_pos hwpos]
    norm_num
  · rw [get_lr_cosine_phase c c.warmup_iters (le_refl _) hinv.le hinv]
    have : ((c.warmup_iters : ℝ) - c.warmup_iters) /
        ((c.lr_decay_iters : ℝ) - c.warmup_iters) = 0 := by
      rw [sub_self, zero_div]
    rw [this]
    norm_num [Real.cos_zero]
  · rw [get_lr_cosine_phase c c.lr_decay_iters hinv.le (le_refl _) hinv]
    have hden : ((c.lr_decay_iters : ℝ) - c.warmup_iters) ≠ 0 := by
      have : (c.warmup_iters : ℝ) < c.lr_decay_iters := by exact_mod_cast hinv
      intro hcon
      linarith
    have : ((c.lr_decay_iters : ℝ) - c.warmup_iters) /
        ((c.lr_decay_iters : ℝ) - c.warmup_iters) = 1 := div_self hden
    rw [this]
    norm_num [Real.cos_pi]

/-- Witness for `lr_bounds_and_boundaries` at a concrete
configuration. -/
def c3cfg : TrainerConfig :=
  { warmup_iters := 2, lr_decay_iters := 4, min_lr := 0, learning_rate := 1 }

theorem lr_bounds_and_boundaries_witness :
    get_lr c3cfg c3cfg.warmup_iters = some ((c3cfg.learning_rate : ℝ)) :=
  (lr_bounds_and_boundaries c3cfg (by norm_num [c3cfg]) (by norm_num [c3cfg])
    (by norm_num [c3cfg])).2.2.1

/-! ## Checkpointing -/

/-- Claim C4: during an evaluation, `torch.save` runs iff
`val_loss < best_val_loss` and `iter > 0`; in particular nothing is
saved at `iter = 0`.  A save writes the checkpoint
`{model, optimizer, iter, new best val loss}` to the single path
`out_dir/ckpt.pt`, overwriting whatever was there; every other path is
untouched, and with no save the file system is unchanged. -/
theorem checkpoint_save_iff {α β : Type} (c : TrainerConfig) (ms : α) (os : β)
    (best val : ℚ) (iter : ℕ) (fs : String → Option (Checkpoint α β)) :
    ((do_eval_ckpt c ms os best iter val fs).2.2 = true ↔
      val < best ∧ 0 < iter) ∧
    (iter = 0 → (do_eval_ckpt c ms os best iter val fs).2.2 = false) ∧
    ((do_eval_ckpt c ms os best iter val fs).2.2 = true →
      (do_eval_ckpt c ms os best iter val fs).1 (ckptPath c) =
        some { model := ms, optimizer := os, iter_num := iter,
               best_val_loss := val }) ∧
    (∀ p, p ≠ ckptPath c →
      (do_eval_ckpt c ms os best iter val fs).1 p = fs p) ∧
    ((do_eval_ckpt c ms os best iter val fs).2.2 = false →
      (do_eval_ckpt c ms os best iter val fs).1 = fs) := by
  unfold do_eval_ckpt
  by_cases hlt : val < best
  · by_cases hit : 0 < iter
    · rw [if_pos hlt, if_pos hit]
      refine ⟨by simp [hlt, hit], by omega, ?_, ?_, by simp⟩
      · intro _
        simp
      · intro p hp
        simp [hp]
    · rw [if_pos hlt, if_neg hit]
      exact ⟨by simp [hit], fun _ => rfl, by simp, fun p _ => rfl, fun _ => rfl⟩
  · rw [if_neg hlt]
    exact ⟨by simp [hlt], fun _ => rfl, by simp, fun p _ => rfl, fun _ => rfl⟩

/-- Witness for `checkpoint_save_iff` at concrete arguments: at
`iter = 250`, `val_loss = 21/10 < best = 3`, the save fires and writes
the new best loss `21/10`. -/
theorem checkpoint_save_iff_witness :
    (do_eval_ckpt { } () () 3 250 (21/10) (fun _ => none)).1
        (ckptPath { }) =
      some { model := (), optimizer := (), iter_num := 250,
             best_val_loss := (21/10 : ℚ) } :=
  (checkpoint_save_iff { } () () 3 (21/10) 250 (fun _ => none)).2.2.1
    ((checkpoint_save_iff { } () () 3 (21/10) 250 (fun _ => none)).1.mpr
      ⟨by norm_num, by norm_num⟩)

/-- Claim C1 (the code bug): the training loop's `best_val_loss` is
never updated, because `Trainer.train` discards `do_eval`'s result.
Concrete failing run: `eval_interval = 1`, `max_iters = 2`, validation
losses `10` at iteration 0, `2` at iteration 1, `5` at iteration 2.
The eval log shows `best_val_loss = 10^9` passed into every evaluation,
and a checkpoint saved at iteration 2 although its loss `5` is worse
than the loss `2` already checkpointed at iteration 1 — contradicting
the claim that the best loss `2` carries over and suppresses the later
save. -/
def c1cfg : TrainerConfig := { eval_interval := 1, max_iters := 2 }

def c1Losses : ℕ → ℚ := fun i => if i = 1 then 2 else if i = 2 then 5 else 10

theorem train_loop_best_val_loss_never_updates :
    (train_evals c1cfg () () c1Losses (fun _ => none)).2.2 =
      [(0, (10 : ℚ) ^ 9, false), (1, (10 : ℚ) ^ 9, true),
       (2, (10 : ℚ) ^ 9, true)] ∧
    (train_evals c1cfg () () c1Losses (fun _ => none)).1 = (10 : ℚ) ^ 9 := by
  constructor <;> rfl

/-! ## Evaluation-mode handling and the metrics sink -/

/-- Counterexample to claim C7 as stated: with `eval_iters = 1` and a
batch fetch that raises, `estimate_loss` terminates (by propagating the
exception) with the model still in eval mode, not training mode. -/
def c7cfg : TrainerConfig := { eval_iters := 1 }

theorem estimate_loss_mode_not_restored_on_error :
    (estimate_loss (ε := Unit) (α := ℚ) c7cfg
        (fun _ _ => Except.error ()) (fun b => Except.ok b)).2 ≠ true := by
  intro h
  exact Bool.noConfusion h

/-- Claim C7 (amended): `estimate_loss` ends in training mode exactly
when it returns normally; when an exception propagates out of its
loops, the model is left in eval mode (the source restores the mode
with a final `model.train()` statement, not a `try`/`finally`). -/
theorem estimate_loss_mode {ε α : Type} (c : TrainerConfig)
    (fetch : String → ℕ → Except ε α) (fwd : α → Except ε ℚ) :
    (∀ o, (estimate_loss c fetch fwd).1 = Except.ok o →
      (estimate_loss c fetch fwd).2 = true) ∧
    (∀ e, (estimate_loss c fetch fwd).1 = Except.error e →
      (estimate_loss c fetch fwd).2 = false) := by
  unfold estimate_loss
  cases hres : (do
      let t ← evalSplit c.eval_iters (fetch "train") fwd
      let v ← evalSplit c.eval_iters (fetch "val") fwd
      pure (listMean t, listMean v) : Except ε (ℚ × ℚ)) with
  | ok o =>
    refine ⟨fun o2 _ => rfl, fun e he => ?_⟩
    simp only [hres] at he
    exact Except.noConfusion he
  | error e =>
    refine ⟨fun o2 ho => ?_, fun e2 _ => rfl⟩
    simp only [hres] at ho
    exact Except.noConfusion ho

/-- Witness for `estimate_loss_mode`: with `eval_iters = 0` both loops
are empty, the call returns normally and the final mode is training. -/
def c7okcfg : TrainerConfig := { eval_iters := 0 }

theorem estimate_loss_mode_witness :
    (estimate_loss (ε := Unit) (α := ℚ) c7okcfg
        (fun _ _ => Except.error ()) (fun b => Except.ok b)).2 = true :=
  (estimate_loss_mode c7okcfg (fun _ _ => Except.error ())
      (fun b => Except.ok b)).1 (listMean [], listMean []) rfl

/-- Counterexample to claim C8 as stated: with `wandb_log` enabled and
a metrics-sink call that raises, the evaluation step does not complete
— `do_eval` propagates the error (before the checkpoint block), so the
training loop is aborted rather than continuing. -/
def c8cfg : TrainerConfig := { wandb_log := true }

theorem do_eval_sink_failure_aborts :
    c8cfg.wandb_log = true ∧
    do_eval (ε := Unit) c8cfg () () (Except.error ()) ((10 : ℚ) ^ 9) 1 3
        (fun _ => none) = Except.error () :=
  ⟨rfl, rfl⟩

/-- Claim C8 (amended): the metrics-sink call in `do_eval` is
unguarded.  When the sink is enabled and raises, the exception
propagates out of `do_eval` (aborting the evaluation step before the
checkpoint block and, with it, the training loop); only when the sink
succeeds, or is disabled, does the evaluation step complete with the
checkpoint block's result. -/
theorem do_eval_sink_propagation {ε α β : Type} (c : TrainerConfig)
    (ms : α) (os : β) (sink : Except ε Unit) (best : ℚ) (iter : ℕ)
    (val : ℚ) (fs : String → Option (Checkpoint α β)) :
    (∀ e, c.wandb_log = true → sink = Except.error e →
      do_eval c ms os sink best iter val fs = Except.error e) ∧
    (c.wandb_log = false →
      do_eval c ms os sink best iter val fs =
        Except.ok (do_eval_ckpt c ms os best iter val fs)) ∧
    (sink = Except.ok () →
      do_eval c ms os sink best iter val fs =
        Except.ok (do_eval_ckpt c ms os best iter val fs)) := by
  refine ⟨?_, ?_, ?_⟩
  · intro e hw hs
    unfold do_eval
    rw [hw, if_pos rfl, hs]
  · intro hw
    unfold do_eval
    rw [hw]
    rfl
  · intro hs
    unfold do_eval
    rw [hs]
    cases c.wandb_log <;> rfl

/-- Witness for `do_eval_sink_propagation`: a disabled sink completes
the evaluation step. -/
theorem do_eval_sink_propagation_witness :
    do_eval (ε := Unit) { } () () (Except.ok ()) ((10 : ℚ) ^ 9) 1 3
        (fun _ => none) =
      Except.ok (do_eval_ckpt { } () () ((10 : ℚ) ^ 9) 1 3 (fun _ => none)) :=
  (do_eval_sink_propagation { } () () (Except.ok ()) ((10 : ℚ) ^ 9) 1 3
      (fun _ => none)).2.1 rfl

/-! ## Optimizer parameter groups -/

/-- Claim C6: `_configure_optimizers` builds exactly two groups; the
first carries the configured weight decay and only grad-requiring
parameters of rank ≥ 2, the second carries weight decay 0 and only
grad-requiring parameters of rank < 2; the groups are disjoint and
together are a permutation of the trainable (grad-requiring)
parameters. -/
theorem optimizer_param_partition (c : TrainerConfig)
    (named_params : List (String × PyParam)) :
    ∃ g0 g1 : ParamGroup, configure_optimizers c named_params = [g0, g1] ∧
      g0.weight_decay = c.weight_decay ∧ g1.weight_decay = 0 ∧
      (∀ p ∈ g0.params, p.requires_grad = true ∧ 2 ≤ p.dim) ∧
      (∀ p ∈ g1.params, p.requires_grad = true ∧ p.dim < 2) ∧
      (∀ p, p ∈ g0.params → p ∉ g1.params) ∧
      List.Perm (g0.params ++ g1.params)
        ((named_params.filter fun np => np.2.requires_grad).map fun np => np.2) := by
  refine ⟨_, _, rfl, rfl, rfl, ?_, ?_, ?_, ?_⟩
  · intro p hp
    simp only [List.mem_map, List.mem_filter, decide_eq_true_eq] at hp
    obtain ⟨np, ⟨⟨-, hg⟩, hd⟩, hnp⟩ := hp
    exact ⟨hnp ▸ hg, hnp ▸ hd⟩
  · intro p hp
    simp only [List.mem_map, List.mem_filter, decide_eq_true_eq] at hp
    obtain ⟨np, ⟨⟨-, hg⟩, hd⟩, hnp⟩ := hp
    exact ⟨hnp ▸ hg, hnp ▸ hd⟩
  · intro p hp0 hp1
    simp only [List.mem_map, List.mem_filter, decide_eq_true_eq] at hp0 hp1
    obtain ⟨np0, ⟨-, hd0⟩, hnp0⟩ := hp0
    obtain ⟨np1, ⟨-, hd1⟩, hnp1⟩ := hp1
    rw [hnp0] at hd0
    rw [hnp1] at hd1
    omega
  · have hcongr :
        (named_params.filter fun np => np.2.requires_grad).filter
            (fun np => np.2.dim < 2) =
          (named_params.filter fun np => np.2.requires_grad).filter
            (fun np => !(decide (2 ≤ np.2.dim))) := by
      apply List.filter_congr
      intro np _
      rcases Nat.lt_or_ge np.2.dim 2 with h | h
      · simp [h, Nat.not_le.mpr h]
      · simp [h, Nat.not_lt.mpr h]
    show List.Perm (_ ++ _) _
    rw [hcongr, ← List.map_append]
    exact (List.filter_append_perm
      (fun np : String × PyParam => decide (2 ≤ np.2.dim)) _).map _

/-- Witness for `optimizer_param_partition` at a concrete parameter
list: a rank-2 weight, a rank-1 bias, and a frozen parameter. -/
def c6params : List (String × PyParam) :=
  [("w", { requires_grad := true, dim := 2, numel := 4 }),
   ("b", { requires_grad := true, dim := 1, numel := 2 }),
   ("frozen", { requires_grad := false, dim := 2, numel := 4 })]

theorem optimizer_param_partition_witness :
    ∃ g0 g1 : ParamGroup, configure_optimizers { } c6params = [g0, g1] ∧
      g0.weight_decay = TrainerConfig.weight_decay { } ∧ g1.weight_decay = 0 ∧
      (∀ p ∈ g0.params, p.requires_grad = true ∧ 2 ≤ p.dim) ∧
      (∀ p ∈ g1.params, p.requires_grad = true ∧ p.dim < 2) ∧
      (∀ p, p ∈ g0.params → p ∉ g1.params) ∧
      List.Perm (g0.params ++ g1.params)
        ((c6params.filter fun np => np.2.requires_grad).map fun np => np.2) :=
  optimizer_param_partition { } c6params

/-! ## Batch sampling -/

/-- Claim C5: under the precondition `corpus length ≥ seq_length + 1`,
every drawn start index `i` (in `torch.randint`'s range
`[0, L - seq_length)`) satisfies `i ≤ L - seq_length - 1`; input row
`k` is `corpus[i : i+S]` and target row `k` is `corpus[i+1 : i+1+S]`;
and position `j` of target row `k` is the corpus token immediately
following the one at position `j` of input row `k` (the corpus index
`i + j + 1` is in bounds). -/
theorem get_batch_rows_shifted (c : TrainerConfig)
    (train_data val_data : List ℕ) (ix : List ℕ)
    (hL : c.seq_length + 1 ≤ train_data.length)
    (hix : ∀ i ∈ ix, i < train_data.length - c.seq_length) :
    (∀ i ∈ ix, i ≤ train_data.length - c.seq_length - 1) ∧
    ((get_batch c train_data val_data "train" ix).1 =
      ix.map fun i => (train_data.drop i).take c.seq_length) ∧
    ((get_batch c train_data val_data "train" ix).2 =
      ix.map fun i => (train_data.drop (i + 1)).take c.seq_length) ∧
    (∀ (k i : ℕ), ix[k]? = some i → ∀ (j : ℕ), j < c.seq_length →
      i + j + 1 < train_data.length ∧
      ((get_batch c train_data val_data "train" ix).1[k]?.bind
        fun row : List Nat => row[j]?) = train_data[i + j]? ∧
      ((get_batch c train_data val_data "train" ix).2[k]?.bind
        fun row : List Nat => row[j]?) = train_data[i + j + 1]?) := by
  have hdata : (if "train" = "train" then train_data else val_data) = train_data :=
    if_pos rfl
  refine ⟨?_, ?_, ?_, ?_⟩
  · intro i hi
    have := hix i hi
    omega
  · simp [get_batch]
  · simp [get_batch]
  · intro k i hk j hj
    have hibound : i < train_data.length - c.seq_length := by
      exact hix i (List.getElem?_mem hk)
    refine ⟨by omega, ?_, ?_⟩
    · show ((ix.map fun i => (train_data.drop i).take c.seq_length)[k]?.bind
        fun row : List Nat => row[j]?) = train_data[i + j]?
      rw [List.getElem?_map, hk, Option.map_some', Option.some_bind]
      rw [List.getElem?_take, if_pos hj, List.getElem?_drop]
    · show ((ix.map fun i => (train_data.drop (i + 1)).take c.seq_length)[k]?.bind
        fun row : List Nat => row[j]?) = train_data[i + j + 1]?
      rw [List.getElem?_map, hk, Option.map_some', Option.some_bind]
      rw [List.getElem?_take, if_pos hj, List.getElem?_drop]
      congr 1
      omega

/-- Witness for `get_batch_rows_shifted` on a concrete 5-token corpus
with `seq_length = 2` and drawn indices `[0, 2]`. -/
def c5cfg : TrainerConfig := { seq_length := 2 }

theorem get_batch_rows_shifted_witness :
    (get_batch c5cfg [10, 11, 12, 13, 14] [] "train" [0, 2]).2 =
      [0, 2].map fun i => (([10, 11, 12, 13, 14] : List ℕ).drop (i + 1)).take
        c5cfg.seq_length :=
  (get_batch_rows_shifted c5cfg [10, 11, 12, 13, 14] [] [0, 2]
    (by decide) (by decide)).2.2.1

/-- Claim C10: any split value other than the exact string `"train"`
falls to the `else` branch and yields a batch from the validation
corpus — there is no rejection path for splits outside
`{train, val}`. -/
theorem get_batch_unknown_split_reads_val (c : TrainerConfig)
    (train_data val_data : List ℕ) (split : String) (ix : List ℕ)
    (h : split ≠ "train") :
    get_batch c train_data val_data split ix =
      (ix.map fun i => (val_data.drop i).take c.seq_length,
       ix.map fun i => (val_data.drop (i + 1)).take c.seq_length) ∧
    get_batch c train_data val_data split ix =
      get_batch c train_data val_data "val" ix := by
  constructor <;> simp [get_batch, h]

/-- Witness for `get_batch_unknown_split_reads_val` at the split value
`"test"`. -/
theorem get_batch_unknown_split_reads_val_witness :
    get_batch { } [1, 2] [3, 4] "test" [0] =
      get_batch { } [1, 2] [3, 4] "val" [0] :=
  (get_batch_unknown_split_reads_val { } [1, 2] [3, 4] "test" [0]
    (by decide)).2

end HaberGPT
